import Mathlib

/-!
Shallow embedding of the frame-sampling and AI-result reconciliation
pipeline of the VlogFlow repository.

Embedded source:
* `src/services/geminiService.ts` (`analyzeVideoFrames`): the response
  check `if (!text) throw new Error("AI 未返回结果")`, and the
  reconciliation `result.timeline.map`, which clamps each entry's
  `bestFrameIndex` via `Math.min(Math.max(0, i), frames.length - 1)` and
  overwrites `timeOffset` with `frames[safeIndex].timeOffset`.
* `src/unnamed/part_000` (`extractFramesFromVideo`): the seeked-driven
  capture loop.  Seconds are modelled as exact rationals; the happy-path
  event semantics (metadata loads, every seek fires `seeked`, every
  `toBlob` yields a blob) is modelled as a pure loop, and the `error`
  event of the video element is modelled by a boolean input.  A JS array
  access `frames[j]` with `j` out of bounds yields `undefined`, so the
  subsequent `.timeOffset` throws a `TypeError`; the embedding returns
  `Except.error` there.
* `src/App.tsx` (`processProject`): the try/catch that turns any stage
  failure into the project's error status with message
  `err.message || "处理失败"`.
-/

namespace VlogFlow

/-- Frame snapshot produced by the sampler (`FrameData` in `types.ts` as
used by the code): capture time in seconds plus the encoded image. -/
structure FrameData where
  timeOffset : ℚ
  base64 : String
deriving DecidableEq

/-- The closed `highlightType` enum of the response schema. -/
inductive HighlightType where
  | food
  | scenery
  | transport
  | other
deriving DecidableEq

/-- A timeline entry as the code manipulates it.  `location` and
`foodItems` are optional in the schema; `timeOffset` is absent (`none`)
in the raw parsed response and is set by the reconciliation step. -/
structure TimelineItem where
  timestamp : String
  content : String
  location : Option String
  foodItems : Option (List String)
  bestFrameIndex : Int
  highlightType : HighlightType
  timeOffset : Option ℚ
deriving DecidableEq

/-- The top-level analysis result (`AnalysisResult` in `types.ts`). -/
structure AnalysisResult where
  title : String
  summary : String
  vibe : List String
  timeline : List TimelineItem
deriving DecidableEq

/-- JS array indexing `frames[i]`: an index that is negative or past the
end yields `undefined`, modelled as `none`. -/
def listGetInt (frames : List FrameData) (i : Int) : Option FrameData :=
  if h : 0 ≤ i ∧ i.toNat < frames.length then some (frames.get ⟨i.toNat, h.2⟩)
  else none

/-- `Math.min(Math.max(0, item.bestFrameIndex), frames.length - 1)` from
`geminiService.ts` line 111. -/
def safeIndex (frames : List FrameData) (rawIndex : Int) : Int :=
  min (max 0 rawIndex) ((frames.length : Int) - 1)

/-- One step of `result.timeline.map(item => ...)`
(`geminiService.ts` lines 110-119): clamp the index, read
`frames[safeIndex].timeOffset` (a `TypeError` when that element is
`undefined`), and return the item with the two fields replaced. -/
def reconcileItem (frames : List FrameData) (item : TimelineItem) :
    Except String TimelineItem :=
  match listGetInt frames (safeIndex frames item.bestFrameIndex) with
  | none =>
      Except.error "TypeError: Cannot read properties of undefined (reading timeOffset)"
  | some f =>
      Except.ok { item with
                    bestFrameIndex := safeIndex frames item.bestFrameIndex,
                    timeOffset := some f.timeOffset }

/-- JS `Array.prototype.map` with a body that can throw: the first throw
aborts the whole map. -/
def mapExcept (f : α → Except String β) : List α → Except String (List β)
  | [] => Except.ok []
  | a :: l =>
    match f a with
    | Except.error e => Except.error e
    | Except.ok b =>
      match mapExcept f l with
      | Except.error e => Except.error e
      | Except.ok bs => Except.ok (b :: bs)

/-- `analyzeVideoFrames` after the external call (`geminiService.ts`
lines 104-124).  `response = none` models a missing, empty or unparsable
response text (`if (!text) throw new Error("AI 未返回结果")`); `some r`
models a successfully parsed payload, which is then reconciled. -/
def analyzeVideoFrames (frames : List FrameData) (response : Option AnalysisResult) :
    Except String AnalysisResult :=
  match response with
  | none => Except.error "AI 未返回结果"
  | some result =>
    match mapExcept (reconcileItem frames) result.timeline with
    | Except.error e => Except.error e
    | Except.ok tl => Except.ok { result with timeline := tl }

/-- The value `reconcileItem` returns when the lookup succeeds, as a
total function; used to state what the successful reconciliation does. -/
def pureRecon (frames : List FrameData) (item : TimelineItem) : TimelineItem :=
  { item with
      bestFrameIndex := safeIndex frames item.bestFrameIndex,
      timeOffset :=
        (listGetInt frames (safeIndex frames item.bestFrameIndex)).map FrameData.timeOffset }

/-- Bounds of the clamped index for a non-empty frame list. -/
theorem safeIndex_bounds (frames : List FrameData) (hne : frames ≠ []) (i : Int) :
    0 ≤ safeIndex frames i ∧ safeIndex frames i < (frames.length : Int) := by
  have hpos : 0 < frames.length := List.length_pos.mpr hne
  have hc : (0 : Int) ≤ (frames.length : Int) - 1 := by omega
  constructor
  · exact le_min (le_max_left 0 i) hc
  · have h1 : min (max 0 i) ((frames.length : Int) - 1) ≤ (frames.length : Int) - 1 :=
      min_le_right _ _
    unfold safeIndex
    omega

/-- An in-bounds JS index lookup succeeds. -/
theorem listGetInt_of_bounds (frames : List FrameData) (i : Int)
    (h0 : 0 ≤ i) (hlen : i < (frames.length : Int)) :
    ∃ f, listGetInt frames i = some f := by
  have hnat : i.toNat < frames.length := by omega
  exact ⟨frames.get ⟨i.toNat, hnat⟩, by simp [listGetInt, h0, hnat]⟩

/-- On a non-empty frame list, `reconcileItem` never throws and returns
exactly the clamped-and-remapped item. -/
theorem reconcileItem_eq_ok (frames : List FrameData) (hne : frames ≠ [])
    (item : TimelineItem) :
    reconcileItem frames item = Except.ok (pureRecon frames item) := by
  obtain ⟨hb0, hblt⟩ := safeIndex_bounds frames hne item.bestFrameIndex
  obtain ⟨f, hf⟩ := listGetInt_of_bounds frames _ hb0 hblt
  simp [reconcileItem, pureRecon, hf]

/-- C1: for a non-empty frame sequence of length N and any raw
`bestFrameIndex` (negative or ≥ N included), reconciliation succeeds and
produces `bestFrameIndex = max 0 (min raw (N-1))`, which lies in
`[0, N-1]`, and a `timeOffset` equal to the clamped frame's
`timeOffset`. -/
theorem clamp_in_bounds_and_offset (frames : List FrameData) (hne : frames ≠ [])
    (item : TimelineItem) :
    0 ≤ safeIndex frames item.bestFrameIndex ∧
    safeIndex frames item.bestFrameIndex ≤ (frames.length : Int) - 1 ∧
    safeIndex frames item.bestFrameIndex =
      max 0 (min item.bestFrameIndex ((frames.length : Int) - 1)) ∧
    ∃ out f, reconcileItem frames item = Except.ok out ∧
      out.bestFrameIndex = safeIndex frames item.bestFrameIndex ∧
      listGetInt frames (safeIndex frames item.bestFrameIndex) = some f ∧
      out.timeOffset = some f.timeOffset := by
  obtain ⟨hb0, hblt⟩ := safeIndex_bounds frames hne item.bestFrameIndex
  have hpos : 0 < frames.length := List.length_pos.mpr hne
  have hc : (0 : Int) ≤ (frames.length : Int) - 1 := by omega
  refine ⟨hb0, by omega, ?_, ?_⟩
  · unfold safeIndex
    rw [max_min_distrib_left, max_eq_right hc]
  · obtain ⟨f, hf⟩ := listGetInt_of_bounds frames _ hb0 hblt
    exact ⟨pureRecon frames item, f, reconcileItem_eq_ok frames hne item, rfl, hf, by
      simp [pureRecon, hf]⟩

/-- Concrete frame sequence used by the witnesses: two frames captured
at 0s and 0.5s. -/
def exFrames : List FrameData := [⟨0, "frame0"⟩, ⟨1/2, "frame1"⟩]

/-- Concrete raw timeline entry with a hallucinated index 999. -/
def exItem : TimelineItem :=
  { timestamp := "00:07"
    content := "路边小吃摊"
    location := some "重庆小面馆"
    foodItems := some ["重庆小面"]
    bestFrameIndex := 999
    highlightType := HighlightType.food
    timeOffset := none }

/-- Witness for C1 at the concrete input `exFrames`, `exItem`. -/
theorem clamp_in_bounds_and_offset_witness :
    0 ≤ safeIndex exFrames exItem.bestFrameIndex ∧
    safeIndex exFrames exItem.bestFrameIndex ≤ (exFrames.length : Int) - 1 :=
  ⟨(clamp_in_bounds_and_offset exFrames (by decide) exItem).1,
   (clamp_in_bounds_and_offset exFrames (by decide) exItem).2.1⟩

/-- A throwing map in which every element succeeds is an ordinary map. -/
theorem mapExcept_eq_map (f : α → Except String β) (g : α → β) (l : List α)
    (h : ∀ a ∈ l, f a = Except.ok (g a)) : mapExcept f l = Except.ok (l.map g) := by
  induction l with
  | nil => rfl
  | cons a l ih =>
    have ha := h a (List.mem_cons_self a l)
    have hl := ih (fun b hb => h b (List.mem_cons_of_mem a hb))
    simp [mapExcept, ha, hl]

/-- With a non-empty frame sequence and a parsed payload,
`analyzeVideoFrames` succeeds and its output is the input with every
timeline entry reconciled in place. -/
theorem analyzeVideoFrames_some_ok (frames : List FrameData) (hne : frames ≠ [])
    (r : AnalysisResult) :
    analyzeVideoFrames frames (some r) =
      Except.ok { r with timeline := r.timeline.map (pureRecon frames) } := by
  have hmap := mapExcept_eq_map (reconcileItem frames) (pureRecon frames) r.timeline
    (fun a _ => reconcileItem_eq_ok frames hne a)
  simp [analyzeVideoFrames, hmap]

/-- C2: with a non-empty frame sequence, the reconciled timeline has the
same length and order as the raw one, and every field other than
`bestFrameIndex` and `timeOffset` — per-entry `timestamp`, `content`,
`location`, `foodItems`, `highlightType`, and top-level `title`,
`summary`, `vibe` — passes through unmodified. -/
theorem reconcile_passthrough (frames : List FrameData) (hne : frames ≠ [])
    (r : AnalysisResult) :
    ∃ out, analyzeVideoFrames frames (some r) = Except.ok out ∧
      out.title = r.title ∧ out.summary = r.summary ∧ out.vibe = r.vibe ∧
      out.timeline.length = r.timeline.length ∧
      ∀ k (hk : k < out.timeline.length) (hk2 : k < r.timeline.length),
        (out.timeline.get ⟨k, hk⟩).timestamp = (r.timeline.get ⟨k, hk2⟩).timestamp ∧
        (out.timeline.get ⟨k, hk⟩).content = (r.timeline.get ⟨k, hk2⟩).content ∧
        (out.timeline.get ⟨k, hk⟩).location = (r.timeline.get ⟨k, hk2⟩).location ∧
        (out.timeline.get ⟨k, hk⟩).foodItems = (r.timeline.get ⟨k, hk2⟩).foodItems ∧
        (out.timeline.get ⟨k, hk⟩).highlightType = (r.timeline.get ⟨k, hk2⟩).highlightType := by
  refine ⟨{ r with timeline := r.timeline.map (pureRecon frames) },
    analyzeVideoFrames_some_ok frames hne r, rfl, rfl, rfl, by simp, ?_⟩
  intro k hk hk2
  simp only [List.get_eq_getElem, List.getElem_map]
  exact ⟨rfl, rfl, rfl, rfl, rfl⟩

/-- Witness for C2 at the concrete input `exFrames` and a one-entry raw
result. -/
theorem reconcile_passthrough_witness :
    ∃ out, analyzeVideoFrames exFrames
        (some { title := "探店之旅", summary := "美食之旅。", vibe := ["#探店"],
                timeline := [exItem] }) = Except.ok out ∧
      out.title = "探店之旅" := by
  obtain ⟨out, hout, htitle, -⟩ := reconcile_passthrough exFrames (by decide)
    { title := "探店之旅", summary := "美食之旅。", vibe := ["#探店"],
      timeline := [exItem] }
  exact ⟨out, hout, htitle⟩

/-- Mapping a function that fixes every element of a list is the
identity on that list. -/
theorem list_map_id_of (l : List α) (f : α → α) (h : ∀ a ∈ l, f a = a) :
    l.map f = l := by
  induction l with
  | nil => rfl
  | cons a l ih =>
    simp [h a (List.mem_cons_self a l),
          ih (fun b hb => h b (List.mem_cons_of_mem a hb))]

/-- An already-valid timeline entry is a fixed point of the
reconciliation step. -/
theorem pureRecon_fixed (frames : List FrameData) (item : TimelineItem)
    (h0 : 0 ≤ item.bestFrameIndex)
    (hlt : item.bestFrameIndex < (frames.length : Int))
    (hoff : item.timeOffset =
      (listGetInt frames item.bestFrameIndex).map FrameData.timeOffset) :
    pureRecon frames item = item := by
  have hsafe : safeIndex frames item.bestFrameIndex = item.bestFrameIndex := by
    unfold safeIndex
    rw [max_eq_right h0, min_eq_left (by omega)]
  unfold pureRecon
  rw [hsafe, ← hoff]

/-- C3: reconciliation is idempotent — if every entry's index is already
in `[0, N-1]` and its `timeOffset` already equals the indexed frame's
`timeOffset`, reconciling against the same non-empty frame sequence
returns the input unchanged. -/
theorem reconcile_idempotent (frames : List FrameData) (hne : frames ≠ [])
    (r : AnalysisResult)
    (hvalid : ∀ item ∈ r.timeline,
      0 ≤ item.bestFrameIndex ∧ item.bestFrameIndex < (frames.length : Int) ∧
      item.timeOffset = (listGetInt frames item.bestFrameIndex).map FrameData.timeOffset) :
    analyzeVideoFrames frames (some r) = Except.ok r := by
  have hmap : r.timeline.map (pureRecon frames) = r.timeline :=
    list_map_id_of _ _ (fun a ha =>
      pureRecon_fixed frames a (hvalid a ha).1 (hvalid a ha).2.1 (hvalid a ha).2.2)
  rw [analyzeVideoFrames_some_ok frames hne r, hmap]

/-- Concrete already-reconciled entry: index 1, offset 0.5s. -/
def exValidItem : TimelineItem :=
  { exItem with bestFrameIndex := 1, timeOffset := some (1/2) }

/-- Concrete already-reconciled result over `exFrames`. -/
def exValidResult : AnalysisResult :=
  { title := "探店之旅", summary := "美食之旅。", vibe := ["#探店"],
    timeline := [exValidItem] }

/-- Witness for C3 at the concrete input `exFrames`, `exValidResult`. -/
theorem reconcile_idempotent_witness :
    analyzeVideoFrames exFrames (some exValidResult) = Except.ok exValidResult := by
  refine reconcile_idempotent exFrames (by decide) exValidResult ?_
  intro item hitem
  have hi : item = exValidItem := by simpa [exValidResult] using hitem
  subst hi
  exact ⟨by decide, by decide, rfl⟩

/-- The seeked-driven capture loop of `extractFramesFromVideo`
(`src/unnamed/part_000` lines 33-56 and 70-72).  `captureFrame` first
checks `video.currentTime >= video.duration || frames.length >=
targetFrameCount` and resolves; otherwise it captures a frame at
`video.currentTime` and seeks ahead by `interval`.  The loop is
expressed with the remaining capacity `targetFrameCount - frames.length`
as the recursion fuel, and returns the list of captured `timeOffset`
values (the image payload is opaque to every claim). -/
def captureLoop (duration interval : ℚ) : ℕ → ℚ → List ℚ
  | 0, _ => []
  | remaining + 1, t =>
    if duration ≤ t then []
    else t :: captureLoop duration interval remaining (t + interval)

/-- Single unfolding equation of `captureLoop`, usable on numeral fuel. -/
theorem captureLoop_unfold (duration interval : ℚ) (k : ℕ) (t : ℚ) :
    captureLoop duration interval k t =
      if k = 0 then []
      else if duration ≤ t then []
      else t :: captureLoop duration interval (k - 1) (t + interval) := by
  cases k <;> simp [captureLoop]

/-- `extractFramesFromVideo` (`src/unnamed/part_000`): `loadFailed`
models the video element firing its `error` event, upon which the
promise rejects (lines 74-76); otherwise metadata loads, the interval is
set to `Math.max(0.5, video.duration / targetFrameCount)` (line 65), the
start time is 0 (line 67), and the capture loop runs to completion. -/
def extractFramesFromVideo (loadFailed : Bool) (duration : ℚ)
    (targetFrameCount : ℕ) : Except String (List ℚ) :=
  if loadFailed then Except.error "视频加载失败，请检查文件格式"
  else Except.ok
    (captureLoop duration (max (1/2) (duration / (targetFrameCount : ℚ)))
      targetFrameCount 0)

/-- The loop never produces more frames than its remaining capacity. -/
theorem captureLoop_length_le (duration interval : ℚ) (k : ℕ) :
    ∀ t, (captureLoop duration interval k t).length ≤ k := by
  induction k with
  | zero => intro t; simp [captureLoop]
  | succ m ih =>
    intro t
    by_cases hd : duration ≤ t
    · simp [captureLoop, hd]
    · simpa [captureLoop, hd] using ih (t + interval)

/-- The loop cannot capture more often than the interval fits into the
remaining duration: its length is at most `⌈(duration - t)/interval⌉`. -/
theorem captureLoop_length_le_ceil (duration interval : ℚ) (hi : 0 < interval)
    (k : ℕ) : ∀ t, (captureLoop duration interval k t).length ≤
      ⌈(duration - t) / interval⌉₊ := by
  induction k with
  | zero => intro t; simp [captureLoop]
  | succ m ih =>
    intro t
    by_cases hd : duration ≤ t
    · simp [captureLoop, hd]
    · have ht : t < duration := lt_of_not_le hd
      have hstep := ih (t + interval)
      have hrw : (duration - t) / interval = (duration - (t + interval)) / interval + 1 := by
        field_simp
        ring
      have hpos : (0 : ℚ) < (duration - t) / interval :=
        div_pos (by linarith) hi
      have hsucc : ⌈(duration - (t + interval)) / interval⌉₊ + 1 ≤
          ⌈(duration - t) / interval⌉₊ := by
        rcases le_or_lt ((duration - (t + interval)) / interval) 0 with hy | hy
        · have h0 : ⌈(duration - (t + interval)) / interval⌉₊ = 0 :=
            Nat.ceil_eq_zero.mpr hy
          have h1 : 1 ≤ ⌈(duration - t) / interval⌉₊ :=
            Nat.one_le_ceil_iff.mpr hpos
          omega
        · rw [hrw, Nat.ceil_add_one (le_of_lt hy)]
      have hlen : (captureLoop duration interval (m + 1) t).length =
          (captureLoop duration interval m (t + interval)).length + 1 := by
        simp [captureLoop, hd]
      rw [hlen]
      omega

/-- Every captured time is at least the current seek time. -/
theorem captureLoop_mem_ge (duration interval : ℚ) (hi : 0 ≤ interval) (k : ℕ) :
    ∀ t, ∀ x ∈ captureLoop duration interval k t, t ≤ x := by
  induction k with
  | zero => intro t x hx; simp [captureLoop] at hx
  | succ m ih =>
    intro t x hx
    by_cases hd : duration ≤ t
    · simp [captureLoop, hd] at hx
    · simp only [captureLoop, hd, if_false, List.mem_cons] at hx
      rcases hx with rfl | hx
      · exact le_refl x
      · have := ih (t + interval) x hx
        linarith

/-- Every captured time is strictly below the duration (the loop stops
before capturing once the seek time reaches the duration). -/
theorem captureLoop_mem_lt (duration interval : ℚ) (k : ℕ) :
    ∀ t, ∀ x ∈ captureLoop duration interval k t, x < duration := by
  induction k with
  | zero => intro t x hx; simp [captureLoop] at hx
  | succ m ih =>
    intro t x hx
    by_cases hd : duration ≤ t
    · simp [captureLoop, hd] at hx
    · simp only [captureLoop, hd, if_false, List.mem_cons] at hx
      rcases hx with rfl | hx
      · exact lt_of_not_le hd
      · exact ih (t + interval) x hx

/-- With a positive interval, the captured times are strictly
increasing. -/
theorem captureLoop_sorted (duration interval : ℚ) (hi : 0 < interval) (k : ℕ) :
    ∀ t, List.Sorted (· < ·) (captureLoop duration interval k t) := by
  induction k with
  | zero => intro t; simp [captureLoop]
  | succ m ih =>
    intro t
    by_cases hd : duration ≤ t
    · simp [captureLoop, hd]
    · simp only [captureLoop, hd, if_false, List.sorted_cons]
      refine ⟨fun b hb => ?_, ih (t + interval)⟩
      have := captureLoop_mem_ge duration interval (le_of_lt hi) m (t + interval) b hb
      linarith

/-- C4: the sampler uses `interval = max(0.5, duration/targetCount)`,
starts at time 0, stops when the seek time reaches the duration or the
capture count reaches `targetCount`, so the frame count is ≤
`targetCount`; and in the 12s / 120-frame scenario the interval is 0.5s
and at most 24 frames are captured. -/
theorem sampler_count_bound (loadFailed : Bool) (duration : ℚ)
    (hd : 0 < duration) (n : ℕ) (fs : List ℚ)
    (h : extractFramesFromVideo loadFailed duration n = Except.ok fs) :
    fs = captureLoop duration (max (1/2) (duration / (n : ℚ))) n 0 ∧
    fs.length ≤ n ∧
    max (1/2 : ℚ) (12 / ((120 : ℕ) : ℚ)) = 1/2 ∧
    (captureLoop 12 (1/2) 120 0).length ≤ 24 := by
  cases loadFailed with
  | true => simp [extractFramesFromVideo] at h
  | false =>
    simp only [extractFramesFromVideo, Bool.false_eq_true, if_false,
      Except.ok.injEq] at h
    subst h
    refine ⟨rfl, captureLoop_length_le _ _ n 0, max_eq_left (by norm_num), ?_⟩
    have hb := captureLoop_length_le_ceil 12 (1/2) (by norm_num) 120 0
    have hv : ((12 : ℚ) - 0) / (1/2) = (24 : ℕ) := by norm_num
    rw [hv, Nat.ceil_natCast] at hb
    exact hb

/-- Witness for C4: the sampler run on a 12s video with target count 120
captures at most 120 frames. -/
theorem sampler_count_bound_witness :
    (captureLoop 12 (max (1/2) (12 / ((120 : ℕ) : ℚ))) 120 0).length ≤ 120 :=
  (sampler_count_bound false 12 (by norm_num) 120
    (captureLoop 12 (max (1/2) (12 / ((120 : ℕ) : ℚ))) 120 0) rfl).2.1

/-- C5: every frame sequence the sampler resolves with has strictly
increasing `timeOffset` values, every value is at most the duration, and
in particular the last one is. -/
theorem sampler_monotone (loadFailed : Bool) (duration : ℚ) (n : ℕ) (fs : List ℚ)
    (h : extractFramesFromVideo loadFailed duration n = Except.ok fs) :
    List.Sorted (· < ·) fs ∧ (∀ x ∈ fs, x ≤ duration) ∧
    ∀ hne : fs ≠ [], fs.getLast hne ≤ duration := by
  cases loadFailed with
  | true => simp [extractFramesFromVideo] at h
  | false =>
    simp only [extractFramesFromVideo, Bool.false_eq_true, if_false,
      Except.ok.injEq] at h
    subst h
    have hi : (0 : ℚ) < max (1/2) (duration / (n : ℚ)) :=
      lt_of_lt_of_le (by norm_num) (le_max_left _ _)
    refine ⟨captureLoop_sorted _ _ hi n 0, fun x hx => ?_, fun hne => ?_⟩
    · exact le_of_lt (captureLoop_mem_lt _ _ n 0 x hx)
    · exact le_of_lt (captureLoop_mem_lt _ _ n 0 _ (List.getLast_mem hne))

/-- Witness for C5 on a 1s video sampled with target count 3. -/
theorem sampler_monotone_witness :
    List.Sorted (· < ·) (captureLoop 1 (max (1/2) (1 / ((3 : ℕ) : ℚ))) 3 0) :=
  (sampler_monotone false 1 3
    (captureLoop 1 (max (1/2) (1 / ((3 : ℕ) : ℚ))) 3 0) rfl).1

/-- C6 counterexample: on a readable video whose duration is 0 the
sampler does not reject — it resolves successfully with an empty frame
sequence (the only rejection path in the code is the `error` event of
the video element). -/
theorem duration_zero_resolves_empty :
    extractFramesFromVideo false 0 120 = Except.ok [] := by
  simp only [extractFramesFromVideo, Bool.false_eq_true, if_false, Except.ok.injEq]
  rw [captureLoop_unfold]
  norm_num

/-- C6 amended: the sampler rejects with the decode-failure message
exactly when the video element fires its `error` event; a readable
duration of 0 instead resolves successfully with an empty frame
sequence. -/
theorem load_error_rejects_zero_duration_resolves (duration : ℚ) (n : ℕ) :
    extractFramesFromVideo true duration n =
      Except.error "视频加载失败，请检查文件格式" ∧
    extractFramesFromVideo false 0 n = Except.ok [] := by
  refine ⟨rfl, ?_⟩
  simp only [extractFramesFromVideo, Bool.false_eq_true, if_false, Except.ok.injEq]
  rw [captureLoop_unfold]
  norm_num

/-- C7 counterexample: duration 0.7s, target count 3 gives interval
0.5s; the loop captures at 0 and 0.5, and the next computed seek time
1.0 exceeds the duration, at which point the loop stops — no frame is
captured at `duration - epsilon`, so the output is exactly `[0, 0.5]`. -/
theorem no_final_clamp_capture :
    extractFramesFromVideo false (7/10) 3 = Except.ok [0, 1/2] := by
  have hmax : max (1/2 : ℚ) (7/10 / ((3 : ℕ) : ℚ)) = 1/2 :=
    max_eq_left (by norm_num)
  simp only [extractFramesFromVideo, Bool.false_eq_true, if_false, hmax,
    Except.ok.injEq]
  rw [captureLoop_unfold]
  norm_num
  rw [captureLoop_unfold]
  norm_num
  rw [captureLoop_unfold]
  norm_num

/-- C7 amended: as soon as the computed seek time reaches or exceeds the
duration, the capture loop terminates without capturing a frame there —
the last computed seek is skipped, not clamped to `duration - epsilon`. -/
theorem seek_past_duration_skips (duration interval t : ℚ) (k : ℕ)
    (h : duration ≤ t) : captureLoop duration interval k t = [] := by
  cases k <;> simp [captureLoop, h]

/-- Witness for the amended C7: a seek at t = 2 on a 1s video captures
nothing even with fuel left. -/
theorem seek_past_duration_skips_witness : captureLoop 1 (1/2) 5 2 = [] :=
  seek_past_duration_skips 1 (1/2) 2 5 (by norm_num)

/-- `Math.min(1, MAX_WIDTH / video.videoWidth)` with `MAX_WIDTH = 960`
(`src/unnamed/part_000` lines 29 and 59). -/
def scaleFactor (videoWidth : ℚ) : ℚ := min 1 (960 / videoWidth)

/-- `canvas.width = video.videoWidth * scale` (line 60). -/
def canvasWidth (videoWidth : ℚ) : ℚ := videoWidth * scaleFactor videoWidth

/-- `canvas.height = video.videoHeight * scale` (line 61). -/
def canvasHeight (videoWidth videoHeight : ℚ) : ℚ :=
  videoHeight * scaleFactor videoWidth

/-- C9: for a positive source width, the output dimensions are the
source dimensions times `scale = min(1, 960/sourceWidth)`, the output
width is ≤ 960, the aspect ratio is preserved exactly (stated
cross-multiplied), and a source width ≤ 960 gives scale exactly 1 (no
upscaling). -/
theorem output_dims_correct (w h : ℚ) (hw : 0 < w) :
    canvasWidth w = w * scaleFactor w ∧
    canvasHeight w h = h * scaleFactor w ∧
    canvasWidth w ≤ 960 ∧
    canvasWidth w * h = canvasHeight w h * w ∧
    (w ≤ 960 → scaleFactor w = 1) := by
  refine ⟨rfl, rfl, ?_, ?_, ?_⟩
  · have : canvasWidth w = min w 960 := by
      unfold canvasWidth scaleFactor
      rw [mul_min_of_nonneg _ _ (le_of_lt hw), mul_one,
        mul_div_cancel₀ _ (ne_of_gt hw)]
    rw [this]
    exact min_le_right _ _
  · unfold canvasWidth canvasHeight
    ring
  · intro h960
    unfold scaleFactor
    rw [min_eq_left ((one_le_div hw).mpr h960)]

/-- Witness for C9: a 1920×1080 source is scaled down to width ≤ 960,
and the no-upscaling conjunct at width 1920 > 960 is inapplicable while
the bound holds. -/
theorem output_dims_correct_witness : canvasWidth 1920 ≤ 960 :=
  (output_dims_correct 1920 1080 (by norm_num)).2.2.1

/-- Project status as used by `App.tsx` (`ProjectStatus` in
`types.ts`). -/
inductive ProjectStatus where
  | idle
  | extracting
  | analyzing
  | done
  | error
deriving DecidableEq

/-- The slice of a project's record that `processProject` writes:
status, published result, and error message. -/
structure ProjectState where
  status : ProjectStatus
  result : Option AnalysisResult
  errorMsg : Option String
deriving DecidableEq

/-- `err.message || "处理失败"` (`App.tsx` line 65): an empty message
falls back to the default. -/
def jsMessageOrDefault (msg : String) : String :=
  if msg = "" then "处理失败" else msg

/-- `processProject` (`App.tsx` lines 51-67), abstracted over the two
awaited stage outcomes: frame extraction and analysis.  Any thrown error
is caught and recorded as the error status with a message; only a fully
successful pipeline publishes a result with status `done`. -/
def processProject (framesOutcome : Except String (List FrameData))
    (response : Option AnalysisResult) : ProjectState :=
  match framesOutcome with
  | Except.error e =>
    { status := ProjectStatus.error, result := none,
      errorMsg := some (jsMessageOrDefault e) }
  | Except.ok frames =>
    match analyzeVideoFrames frames response with
    | Except.error e =>
      { status := ProjectStatus.error, result := none,
        errorMsg := some (jsMessageOrDefault e) }
    | Except.ok r =>
      { status := ProjectStatus.done, result := some r, errorMsg := none }

/-- C8: a missing or empty response text makes `analyzeVideoFrames`
fail with an error and return no result, and the orchestrator converts
that failure into the error status with a non-empty message and no
published result. -/
theorem empty_response_errors (frames : List FrameData) :
    analyzeVideoFrames frames none = Except.error "AI 未返回结果" ∧
    (processProject (Except.ok frames) none).status = ProjectStatus.error ∧
    (processProject (Except.ok frames) none).result = none ∧
    ∃ m, (processProject (Except.ok frames) none).errorMsg = some m ∧ m ≠ "" := by
  refine ⟨rfl, rfl, rfl, "AI 未返回结果", rfl, by decide⟩

/-- C10: with an empty frame sequence and a non-empty parsed timeline,
the clamp evaluates to -1, the lookup `frames[-1]` is undefined, and the
analysis call fails with a runtime error instead of returning a result;
the orchestrator passes the (possibly empty) extracted frames straight
into the analysis, where this failure lands in the error state. -/
theorem empty_frames_runtime_error (rawIndex : Int) (r : AnalysisResult)
    (hne : r.timeline ≠ []) :
    safeIndex [] rawIndex = -1 ∧
    listGetInt [] (safeIndex [] rawIndex) = none ∧
    (∃ e, analyzeVideoFrames [] (some r) = Except.error e) ∧
    (processProject (Except.ok []) (some r)).status = ProjectStatus.error ∧
    (processProject (Except.ok []) (some r)).result = none := by
  have hsafe : ∀ j : Int, safeIndex [] j = -1 := by
    intro j
    unfold safeIndex
    simp only [List.length_nil, Nat.cast_zero, zero_sub]
    exact min_eq_right (le_trans (by norm_num) (le_max_left 0 j))
  have hget : ∀ j : Int, listGetInt [] (safeIndex [] j) = none := by
    intro j
    rw [hsafe j]
    rfl
  have hrec : ∀ item : TimelineItem, reconcileItem [] item =
      Except.error "TypeError: Cannot read properties of undefined (reading timeOffset)" := by
    intro item
    simp [reconcileItem, hget item.bestFrameIndex]
  obtain ⟨a, tl, htl⟩ := List.exists_cons_of_ne_nil hne
  have hana : analyzeVideoFrames [] (some r) =
      Except.error "TypeError: Cannot read properties of undefined (reading timeOffset)" := by
    simp [analyzeVideoFrames, htl, mapExcept, hrec a]
  refine ⟨hsafe rawIndex, hget rawIndex, ⟨_, hana⟩, ?_, ?_⟩ <;>
    simp [processProject, hana]

/-- Concrete raw result with one hallucinated-index entry, used by the
C10 witness. -/
def exResult : AnalysisResult :=
  { title := "探店之旅", summary := "美食之旅。", vibe := ["#探店"],
    timeline := [exItem] }

/-- Witness for C10: analyzing `exResult` against an empty frame
sequence puts the project in the error state. -/
theorem empty_frames_runtime_error_witness :
    (processProject (Except.ok []) (some exResult)).status = ProjectStatus.error :=
  (empty_frames_runtime_error 5 exResult (by decide)).2.2.2.1

end VlogFlow
